import Mathlib

/-!
Verification of the HF2 framing and command/response codec (`hftwo`).

The development shallowly embeds the two source modules:
* `lib.rs`: the packet framer (`PacketKind`, `Packet`);
* `command.rs`: the command codec (`Command`, `Request`, `Status`, `Response`).

Bytes are modelled as `Nat` values (< 256 on well-formed buffers); buffers
as `List Nat`. Rust operations that can panic (failed `assert!`,
out-of-bounds slicing, `copy_from_slice` length mismatch) are modelled as
`Option`-returning functions where the panic is reachable, with `none`
standing for the panic.
-/

namespace HFTwo

/-- Little-endian bytes of a `u32`, as in `u32::to_le_bytes`. -/
def u32ToLeBytes (v : Nat) : List Nat :=
  [v % 256, v / 2 ^ 8 % 256, v / 2 ^ 16 % 256, v / 2 ^ 24 % 256]

/-- Little-endian bytes of a `u16`, as in `u16::to_le_bytes`. -/
def u16ToLeBytes (v : Nat) : List Nat :=
  [v % 256, v / 2 ^ 8 % 256]

/-- `u32::from_le_bytes` on four byte values. -/
def u32FromLeBytes (b0 b1 b2 b3 : Nat) : Nat :=
  b0 + b1 * 2 ^ 8 + b2 * 2 ^ 16 + b3 * 2 ^ 24

/-- `u16::from_le_bytes` on two byte values. -/
def u16FromLeBytes (b0 b1 : Nat) : Nat :=
  b0 + b1 * 2 ^ 8

/-- `Command` from `command.rs`: the nine named protocol commands plus the
`Other` fallback carrying the raw `u32`. -/
inductive Command where
  | BinInfo
  | Info
  | ResetIntoApp
  | ResetIntoBootloader
  | StartFlash
  | WriteFlashPage
  | ChecksumPages
  | ReadWords
  | WriteWords
  | Dmesg
  | Other (value : Nat)
deriving DecidableEq, Repr

/-- `impl From<u32> for Command` from `command.rs`, arm for arm. -/
def Command.fromU32 (value : Nat) : Command :=
  match value with
  | 0x0001 => .BinInfo
  | 0x0002 => .Info
  | 0x0003 => .ResetIntoApp
  | 0x0004 => .ResetIntoBootloader
  | 0x0005 => .StartFlash
  | 0x0006 => .WriteFlashPage
  | 0x0007 => .ReadWords
  | 0x0008 => .WriteWords
  | 0x0010 => .Dmesg
  | _ => .Other value

/-- `impl Into<u32> for Command` from `command.rs`, arm for arm. -/
def Command.intoU32 : Command → Nat
  | .BinInfo => 0x0001
  | .Info => 0x0002
  | .ResetIntoApp => 0x0003
  | .ResetIntoBootloader => 0x0004
  | .StartFlash => 0x0005
  | .WriteFlashPage => 0x0006
  | .ChecksumPages => 0x0007
  | .ReadWords => 0x0008
  | .WriteWords => 0x0009
  | .Dmesg => 0x0010
  | .Other value => value

/-- `Status` from `command.rs` (the `Sucess` spelling is the source's). -/
inductive Status where
  | Sucess
  | Unknown
  | Error
  | Other (value : Nat)
deriving DecidableEq, Repr

/-- `impl From<u8> for Status` from `command.rs`. -/
def Status.fromU8 (value : Nat) : Status :=
  match value with
  | 0x00 => .Sucess
  | 0x01 => .Unknown
  | 0x02 => .Error
  | _ => .Other value

/-- `impl Into<u8> for Status` from `command.rs`. -/
def Status.intoU8 : Status → Nat
  | .Sucess => 0x00
  | .Unknown => 0x01
  | .Error => 0x02
  | .Other value => value

/-- `Request::HEADER_LEN` from `command.rs`. -/
def Request.HEADER_LEN : Nat := 8

/-- `Request::new` from `command.rs`. The Rust function asserts
`buf.len() == data.len() + 8` (modelled as the guard; `none` is the panic),
writes the command id to bytes 0..4, the tag to bytes 4..6 and the data to
bytes 8.., leaving bytes 6 and 7 of `buf` untouched. The result is the
written buffer the `Request` view borrows. -/
def Request.new (buf : List Nat) (command : Command) (tag : Nat)
    (data : List Nat) : Option (List Nat) :=
  if buf.length = data.length + Request.HEADER_LEN then
    some (u32ToLeBytes (Command.intoU32 command) ++ u16ToLeBytes tag ++
      ((buf.drop 6).take 2) ++ data)
  else
    none

/-- `Request::from_bytes` from `command.rs`: asserts `buf.len() >= 8`
before anything else, then wraps the buffer unchanged. -/
def Request.from_bytes (buf : List Nat) : Option (List Nat) :=
  if Request.HEADER_LEN ≤ buf.length then some buf else none

/-- `Request::command` from `command.rs`: little-endian `u32` decode of
bytes 0..4, then `Command::from`. -/
def Request.command (r : List Nat) : Command :=
  Command.fromU32
    (u32FromLeBytes (r.getD 0 0) (r.getD 1 0) (r.getD 2 0) (r.getD 3 0))

/-- `Request::tag` from `command.rs`: little-endian `u16` decode of
bytes 4..6. -/
def Request.tag (r : List Nat) : Nat :=
  u16FromLeBytes (r.getD 4 0) (r.getD 5 0)

/-- `Request::data` from `command.rs`: the slice `&self.0[8..]`. -/
def Request.data (r : List Nat) : List Nat :=
  r.drop 8

/-- `Response::HEADER_LEN` from `command.rs`. -/
def Response.HEADER_LEN : Nat := 4

/-- `Response::new` from `command.rs`: asserts
`buf.len() == data.len() + 4`, writes the tag to bytes 0..2, the status
byte to byte 2, `status_info` to byte 3 and the data to bytes 4..;
every byte of the buffer is overwritten. -/
def Response.new (buf : List Nat) (tag : Nat) (status : Status)
    (status_info : Nat) (data : List Nat) : Option (List Nat) :=
  if buf.length = data.length + Response.HEADER_LEN then
    some (u16ToLeBytes tag ++ [Status.intoU8 status, status_info] ++ data)
  else
    none

/-- `Response::from_bytes` from `command.rs`: asserts `buf.len() >= 4`
before anything else, then wraps the buffer unchanged. -/
def Response.from_bytes (buf : List Nat) : Option (List Nat) :=
  if Response.HEADER_LEN ≤ buf.length then some buf else none

/-- `Response::tag` from `command.rs`. -/
def Response.tag (r : List Nat) : Nat :=
  u16FromLeBytes (r.getD 0 0) (r.getD 1 0)

/-- `Response::status` from `command.rs`. -/
def Response.status (r : List Nat) : Status :=
  Status.fromU8 (r.getD 2 0)

/-- `Response::status_info` from `command.rs`. -/
def Response.status_info (r : List Nat) : Nat :=
  r.getD 3 0

/-- `Response::data` from `command.rs`: the slice `&self.0[4..]`. -/
def Response.data (r : List Nat) : List Nat :=
  r.drop 4

/-- `PacketKind` from `lib.rs`. -/
inductive PacketKind where
  | CommandInner
  | CommandFinal
  | StdOut
  | StdErr
deriving DecidableEq, Repr, Fintype

/-- The `repr(u8)` discriminant of `PacketKind` (`kind as u8`). -/
def PacketKind.toU8 : PacketKind → Nat
  | .CommandInner => 0x00
  | .CommandFinal => 0x40
  | .StdOut => 0x80
  | .StdErr => 0xC0

/-- `impl From<u8> for PacketKind` from `lib.rs`: masks the top two bits
and matches against the four tag values; the `unreachable!()` fallback arm
is modelled as `none`. -/
def PacketKind.fromU8 (value : Nat) : Option PacketKind :=
  match value &&& 0b11000000 with
  | 0x00 => some .CommandInner
  | 0x40 => some .CommandFinal
  | 0x80 => some .StdOut
  | 0xC0 => some .StdErr
  | _ => none

/-- `Packet::MAX_LEN` from `lib.rs`. -/
def Packet.MAX_LEN : Nat := 63

/-- `Packet::new` from `lib.rs`: asserts `data.len() <= 63` and
`buf.len() >= data.len() + 1`, copies the data to `buf[1..1+data.len()]`,
then sets `buf[0]` to `0 | data.len() | kind`. Bytes of `buf` past index
`data.len()` are not written. The result is the whole written buffer that
the `Packet` view borrows. -/
def Packet.new (buf : List Nat) (kind : PacketKind) (data : List Nat) :
    Option (List Nat) :=
  if data.length ≤ 63 ∧ data.length + 1 ≤ buf.length then
    some (((0 ||| data.length) ||| PacketKind.toU8 kind) :: data ++
      buf.drop (data.length + 1))
  else
    none

/-- `Packet::from_bytes` from `lib.rs`: asserts `buf.len() > 0` and
`buf.len() <= 64`, reads `len = (buf[0] & 0x3F) + 1` and takes the slice
`&buf[0..len]`; the Rust slicing panics when `len` exceeds the buffer
length, modelled as `none`. -/
def Packet.from_bytes (buf : List Nat) : Option (List Nat) :=
  if 0 < buf.length ∧ buf.length ≤ 64 then
    let len := (buf.headD 0 &&& 0b00111111) + 1
    if len ≤ buf.length then some (buf.take len) else none
  else
    none

/-- `Packet::len` from `lib.rs`: `(self.0[0] & 0x3F) + 1` (payload length
plus the header byte). -/
def Packet.len (p : List Nat) : Nat :=
  (p.headD 0 &&& 0b00111111) + 1

/-- `Packet::kind` from `lib.rs`, via `PacketKind::from(self.0[0])`;
indexing an empty view (impossible for constructed packets) is `none`. -/
def Packet.kind : List Nat → Option PacketKind
  | [] => none
  | b :: _ => PacketKind.fromU8 b

/-- `Packet::data` from `lib.rs`: the slice `&self.0[1..self.len()]`,
whose Rust indexing panics (modelled `none`) when `self.len()` exceeds the
view's length. -/
def Packet.data (p : List Nat) : Option (List Nat) :=
  if Packet.len p ≤ p.length then
    some ((p.drop 1).take (Packet.len p - 1))
  else
    none

/-! Helper lemmas about the header byte written by `Packet::new`.  The
byte is `(0 | L) | kind_tag` with `L ≤ 63`; the kind tag occupies the top
two bits and `L` the bottom six, so each field is recovered exactly. -/

set_option maxRecDepth 8192 in
lemma header_kind_extract :
    ∀ (k : PacketKind) (L : Fin 64),
      PacketKind.fromU8 ((0 ||| L.val) ||| PacketKind.toU8 k) = some k := by
  decide

set_option maxRecDepth 8192 in
lemma header_len_extract :
    ∀ (k : PacketKind) (L : Fin 64),
      ((0 ||| L.val) ||| PacketKind.toU8 k) &&& 0b00111111 = L.val := by
  decide

lemma packet_kind_header (k : PacketKind) (L : Nat) (hL : L ≤ 63)
    (rest : List Nat) :
    Packet.kind (((0 ||| L) ||| PacketKind.toU8 k) :: rest) = some k := by
  have h : PacketKind.fromU8 ((0 ||| L) ||| PacketKind.toU8 k) = some k :=
    header_kind_extract k ⟨L, by omega⟩
  simpa [Packet.kind] using h

lemma packet_len_header (k : PacketKind) (L : Nat) (hL : L ≤ 63)
    (rest : List Nat) :
    Packet.len (((0 ||| L) ||| PacketKind.toU8 k) :: rest) = L + 1 := by
  have h : ((0 ||| L) ||| PacketKind.toU8 k) &&& 0b00111111 = L :=
    header_len_extract k ⟨L, by omega⟩
  simp only [Packet.len, List.headD_cons]
  rw [h]

lemma packet_data_frame (k : PacketKind) (data rest : List Nat)
    (hL : data.length ≤ 63) :
    Packet.data
        ((((0 ||| data.length) ||| PacketKind.toU8 k) :: data) ++ rest) =
      some data := by
  have hlen : Packet.len
      ((((0 ||| data.length) ||| PacketKind.toU8 k) :: data) ++ rest) =
      data.length + 1 := packet_len_header k data.length hL (data ++ rest)
  rw [Packet.data, hlen,
    if_pos (by simp only [List.length_append, List.length_cons]; omega)]
  simp [List.take_left]

end HFTwo

namespace HFTwo

/-- Claim C1: the code decodes the raw command id `0x0007` to `ReadWords`,
which re-encodes to `0x0008`, so the decode-then-encode round trip over
32-bit values fails at `0x0007` (the `From<u32>` match is missing the
`ChecksumPages` arm and shifts the following arms). -/
theorem command_roundtrip_fails_at_seven :
    Command.fromU32 0x0007 = Command.ReadWords ∧
      Command.intoU32 (Command.fromU32 0x0007) = 0x0008 ∧
      Command.intoU32 (Command.fromU32 0x0007) ≠ 0x0007 := by
  decide

/-- Claim C2: encoding `ChecksumPages` gives `0x0007`, but decoding
`0x0007` yields `ReadWords`, so the variant-to-raw and raw-to-variant maps
are not mutual inverses; `ReadWords` and `WriteWords` fail the same way. -/
theorem command_encode_decode_fails_on_named_variants :
    Command.fromU32 (Command.intoU32 Command.ChecksumPages) =
        Command.ReadWords ∧
      Command.fromU32 (Command.intoU32 Command.ReadWords) =
        Command.WriteWords ∧
      Command.fromU32 (Command.intoU32 Command.WriteWords) =
        Command.Other 0x0009 := by
  decide

/-- Claim C4: for every packet kind and every payload of at most 63 bytes,
encoding the payload with `Packet::new` into any buffer of length at least
`payload length + 1` succeeds, and reading the resulting packet back gives
the original kind (`Packet::kind`) and the original payload
(`Packet::data`). -/
theorem packet_roundtrip (kind : PacketKind) (p buf : List Nat)
    (hp : p.length ≤ 63) (hb : p.length + 1 ≤ buf.length) :
    ∃ frame, Packet.new buf kind p = some frame ∧
      Packet.kind frame = some kind ∧ Packet.data frame = some p := by
  refine ⟨(((0 ||| p.length) ||| PacketKind.toU8 kind) :: p) ++
      buf.drop (p.length + 1), ?_, ?_, ?_⟩
  · simp [Packet.new, hp, hb]
  · rw [List.cons_append]
    exact packet_kind_header kind p.length hp _
  · exact packet_data_frame kind p (buf.drop (p.length + 1)) hp

/-- Witness for `packet_roundtrip`: kind `StdOut` with payload
`[1, 2, 3]` into a 4-byte buffer. -/
theorem packet_roundtrip_witness :
    ([1, 2, 3] : List Nat).length ≤ 63 ∧
      ([1, 2, 3] : List Nat).length + 1 ≤ ([9, 9, 9, 9] : List Nat).length ∧
      ∃ frame,
        Packet.new [9, 9, 9, 9] PacketKind.StdOut [1, 2, 3] = some frame ∧
        Packet.kind frame = some PacketKind.StdOut ∧
        Packet.data frame = some [1, 2, 3] :=
  ⟨by decide, by decide,
    packet_roundtrip PacketKind.StdOut [1, 2, 3] [9, 9, 9, 9]
      (by decide) (by decide)⟩

/-- Claim C10: `Packet::new` fails exactly when the payload exceeds 63
bytes or the buffer is smaller than `payload length + 1` (so it succeeds
for every sufficiently large buffer, buffers longer than 64 bytes
included); on success the buffer bytes past index `payload length` are
unchanged and `Packet::kind` / `Packet::data` on the result give back the
inputs, unaffected by those trailing bytes. -/
theorem packet_new_checks_and_preserves_tail (kind : PacketKind)
    (data buf : List Nat) :
    (Packet.new buf kind data = none ↔
      63 < data.length ∨ buf.length < data.length + 1) ∧
    ∀ frame, Packet.new buf kind data = some frame →
      frame.length = buf.length ∧
      frame.drop (data.length + 1) = buf.drop (data.length + 1) ∧
      Packet.kind frame = some kind ∧
      Packet.data frame = some data := by
  constructor
  · rw [Packet.new]
    split
    next h => simp only [reduceCtorEq, false_iff]; omega
    next h => simp only [true_iff]; omega
  · intro frame hf
    rw [Packet.new] at hf
    split at hf
    next h =>
      obtain ⟨hp, hb⟩ := h
      obtain rfl : (((0 ||| data.length) ||| PacketKind.toU8 kind) :: data) ++
          buf.drop (data.length + 1) = frame := Option.some.inj hf
      refine ⟨?_, ?_, ?_, packet_data_frame kind data _ hp⟩
      · simp only [List.length_append, List.length_cons, List.length_drop]
        omega
      · simp
      · rw [List.cons_append]
        exact packet_kind_header kind data.length hp _
    next => exact absurd hf (by simp)

/-- Witness for `packet_new_checks_and_preserves_tail`: a 70-byte buffer
(longer than one transport frame) still accepts a 2-byte payload, and the
resulting packet reads back kind `StdErr` and payload `[1, 2]`. -/
theorem packet_new_checks_witness :
    Packet.kind ([194, 1, 2] ++ List.replicate 67 5) =
        some PacketKind.StdErr ∧
      Packet.data ([194, 1, 2] ++ List.replicate 67 5) = some [1, 2] := by
  have h := (packet_new_checks_and_preserves_tail PacketKind.StdErr [1, 2]
      (List.replicate 70 5)).2
    ([194, 1, 2] ++ List.replicate 67 5) (by decide)
  exact ⟨h.2.2.1, h.2.2.2⟩

set_option maxRecDepth 4096 in
/-- Claim C8: for every byte, masking the top two bits yields one of
`0x00/0x40/0x80/0xC0`, so `PacketKind::from` always returns a kind and its
`unreachable!()` fallback is never taken. -/
theorem packetKind_from_total :
    ∀ b : Fin 256, (PacketKind.fromU8 b.val).isSome = true := by
  decide

/-- Counterexample for claim C3: `Request::new` does not write bytes 6 and
7, so with an all-`0xFF` prior buffer the encoded request is not
`[01,00,00,00,05,00,00,00]`. -/
theorem request_scenario_not_prior_independent :
    Request.new (List.replicate 8 0xFF) Command.BinInfo 0x0005 [] ≠
      some [0x01, 0x00, 0x00, 0x00, 0x05, 0x00, 0x00, 0x00] := by
  decide

set_option maxRecDepth 8192 in
/-- Claim C3 (amended): encoding a request with command `BinInfo`, tag
`0x0005` and empty data into an exactly 8-byte buffer writes bytes 0-5 to
`[01,00,00,00,05,00]` and leaves bytes 6 and 7 at their prior contents
(so a zeroed buffer yields exactly `[01,00,00,00,05,00,00,00]`), and the
encoded buffer decodes to command `BinInfo`, tag `0x0005` and empty
data. -/
theorem request_scenario_binfo (b0 b1 b2 b3 b4 b5 b6 b7 : Nat) :
    Request.new [b0, b1, b2, b3, b4, b5, b6, b7] Command.BinInfo 0x0005 [] =
        some [0x01, 0x00, 0x00, 0x00, 0x05, 0x00, b6, b7] ∧
      Request.command [0x01, 0x00, 0x00, 0x00, 0x05, 0x00, b6, b7] =
        Command.BinInfo ∧
      Request.tag [0x01, 0x00, 0x00, 0x00, 0x05, 0x00, b6, b7] = 0x0005 ∧
      Request.data [0x01, 0x00, 0x00, 0x00, 0x05, 0x00, b6, b7] = [] := by
  refine ⟨rfl, ?_, ?_, rfl⟩
  · show Command.fromU32 (u32FromLeBytes 1 0 0 0) = Command.BinInfo
    rfl
  · show u16FromLeBytes 5 0 = 5
    rfl

/-- Claim C5: `Packet::from_bytes` fails on every malformed frame: length
0, length above 64, or a declared payload length whose frame
(`(frame[0] & 0x3F) + 1` bytes) exceeds the buffer actually given; no
partial view is returned. -/
theorem packet_from_bytes_rejects_malformed (buf : List Nat)
    (h : buf.length = 0 ∨ 64 < buf.length ∨
      buf.length < (buf.headD 0 &&& 0b00111111) + 1) :
    Packet.from_bytes buf = none := by
  rw [Packet.from_bytes]
  split
  next hg =>
    rw [if_neg]
    omega
  next => rfl

/-- Witness for `packet_from_bytes_rejects_malformed`: the 2-byte frame
`[0x05, 0x01]` declares a 5-byte payload, so decoding fails. -/
theorem packet_from_bytes_rejects_witness :
    Packet.from_bytes [0x05, 0x01] = none :=
  packet_from_bytes_rejects_malformed [0x05, 0x01] (by decide)

/-- Claim C6: encoding a response with tag `0x0005`, status `Error`,
status-info `0x07` and data `[0xAA, 0xBB]` into an exactly 6-byte buffer
produces exactly `[05,00,02,07,AA,BB]` (every byte is written), and that
buffer decodes back to the same tag, status, status-info and data. -/
theorem response_scenario_error (buf : List Nat) (h : buf.length = 6) :
    Response.new buf 0x0005 Status.Error 0x07 [0xAA, 0xBB] =
        some [0x05, 0x00, 0x02, 0x07, 0xAA, 0xBB] ∧
      Response.tag [0x05, 0x00, 0x02, 0x07, 0xAA, 0xBB] = 0x0005 ∧
      Response.status [0x05, 0x00, 0x02, 0x07, 0xAA, 0xBB] = Status.Error ∧
      Response.status_info [0x05, 0x00, 0x02, 0x07, 0xAA, 0xBB] = 0x07 ∧
      Response.data [0x05, 0x00, 0x02, 0x07, 0xAA, 0xBB] = [0xAA, 0xBB] := by
  refine ⟨?_, by decide, by decide, by decide, by decide⟩
  rw [Response.new, if_pos (by rw [h]; rfl)]
  rfl

/-- Witness for `response_scenario_error`: the prior buffer contents are
irrelevant; an all-`0xFF` 6-byte buffer gives the same frame. -/
theorem response_scenario_error_witness :
    Response.new (List.replicate 6 0xFF) 0x0005 Status.Error 0x07
        [0xAA, 0xBB] = some [0x05, 0x00, 0x02, 0x07, 0xAA, 0xBB] :=
  (response_scenario_error (List.replicate 6 0xFF) (by decide)).1

/-- Claim C7: `Request::from_bytes` fails exactly on buffers shorter than
8 bytes and `Response::from_bytes` exactly on buffers shorter than 4
bytes (the length guard runs before any field access); buffers meeting
the minimum length are accepted unchanged. -/
theorem from_bytes_header_minimums (buf : List Nat) :
    (buf.length < 8 → Request.from_bytes buf = none) ∧
      (8 ≤ buf.length → Request.from_bytes buf = some buf) ∧
      (buf.length < 4 → Response.from_bytes buf = none) ∧
      (4 ≤ buf.length → Response.from_bytes buf = some buf) := by
  refine ⟨fun h => ?_, fun h => ?_, fun h => ?_, fun h => ?_⟩ <;>
    simp [Request.from_bytes, Response.from_bytes, Request.HEADER_LEN,
      Response.HEADER_LEN] <;>
    omega

lemma drop6_take2_eq (buf : List Nat) (h : 8 ≤ buf.length) :
    (buf.drop 6).take 2 = [buf.getD 6 0, buf.getD 7 0] := by
  rcases buf with _ | ⟨b0, _ | ⟨b1, _ | ⟨b2, _ | ⟨b3, _ | ⟨b4, _ |
      ⟨b5, _ | ⟨b6, _ | ⟨b7, rest⟩⟩⟩⟩⟩⟩⟩⟩ <;>
    first
      | rfl
      | simp at h

/-- Claim C9: with a destination buffer of length exactly
`data.len() + 8`, `Request::new` writes the command id to bytes 0-3, the
tag to bytes 4-5 and the data from byte 8 on, while bytes 6 and 7 keep
the buffer's prior contents (they are not zeroed). -/
theorem request_new_reserved_pass_through (command : Command) (tag : Nat)
    (data buf : List Nat) (h : buf.length = data.length + 8) :
    ∃ out, Request.new buf command tag data = some out ∧
      out.length = buf.length ∧
      out.take 4 = u32ToLeBytes (Command.intoU32 command) ∧
      (out.drop 4).take 2 = u16ToLeBytes tag ∧
      out.getD 6 0 = buf.getD 6 0 ∧
      out.getD 7 0 = buf.getD 7 0 ∧
      out.drop 8 = data := by
  have hc : (buf.drop 6).take 2 = [buf.getD 6 0, buf.getD 7 0] :=
    drop6_take2_eq buf (by omega)
  refine ⟨u32ToLeBytes (Command.intoU32 command) ++ u16ToLeBytes tag ++
      [buf.getD 6 0, buf.getD 7 0] ++ data, ?_, ?_, rfl, rfl, rfl, rfl, rfl⟩
  · rw [Request.new, if_pos (by simp [Request.HEADER_LEN, h]), hc]
  · simp only [u32ToLeBytes, u16ToLeBytes, List.length_append,
      List.length_cons, List.length_nil, h]
    omega

/-- Witness for `request_new_reserved_pass_through`: command `Info`, tag
`0x0203`, one data byte, and a 9-byte buffer whose bytes 6 and 7 are 77
and 88. -/
theorem request_new_reserved_witness :
    ∃ out, Request.new [1, 2, 3, 4, 5, 6, 77, 88, 9] Command.Info 0x0203
          [0xAB] = some out ∧
      out.length = ([1, 2, 3, 4, 5, 6, 77, 88, 9] : List Nat).length ∧
      out.take 4 = u32ToLeBytes (Command.intoU32 Command.Info) ∧
      (out.drop 4).take 2 = u16ToLeBytes 0x0203 ∧
      out.getD 6 0 = ([1, 2, 3, 4, 5, 6, 77, 88, 9] : List Nat).getD 6 0 ∧
      out.getD 7 0 = ([1, 2, 3, 4, 5, 6, 77, 88, 9] : List Nat).getD 7 0 ∧
      out.drop 8 = [0xAB] :=
  request_new_reserved_pass_through Command.Info 0x0203 [0xAB]
    [1, 2, 3, 4, 5, 6, 77, 88, 9] (by decide)

/-- Witness for `from_bytes_header_minimums`: a 7-byte buffer is rejected
as a request; a 4-byte buffer is accepted as a response. -/
theorem from_bytes_header_minimums_witness :
    Request.from_bytes [0, 1, 2, 3, 4, 5, 6] = none ∧
      Response.from_bytes [0, 1, 2, 3] = some [0, 1, 2, 3] :=
  ⟨(from_bytes_header_minimums [0, 1, 2, 3, 4, 5, 6]).1 (by decide),
    (from_bytes_header_minimums [0, 1, 2, 3]).2.2.2 (by decide)⟩

end HFTwo
